import Mathlib

/-!
Verification of the attribute-classification and chain-rendering engine of a
Go error-construction package (package `errors`, file `errors.go`).

The embedding below translates the source directly:

* `Arg` models a value of the variadic `args ...interface{}` list: the six
  singular attribute kinds (`Mod`, `Func`, `Kind`, `Op`, `Obj`, `Code`), a Go
  `string`, a value implementing the `error` interface, a `nil` interface
  value, and any other value (carried together with its `%v` rendering, which
  is the only thing the engine uses).
* `Cause` models a Go `error` interface value stored in the `Err` field: it is
  either a native `Error` record of this package or a foreign error, of which
  only the message (returned by its own `Error()` method) is relevant.
* `Error` models the `Error` struct; `Template` is the same shape as in the
  source (`type Template Error`).
* `e` models the classification function `e(err Error, args ...interface{})`;
  `E`, `T`, `Template.T`, `Template.E` model the public constructors.
* `goTrim` models Go `strings.Trim` (cutset semantics: characters trimmed from
  both ends); `Error.render` models the `Error() string` method including the
  deferred final trim, and `Error.Unwrap` models `Unwrap`.
-/

namespace GoErrors

/-- Go `strings.Trim s cutset`: remove from both ends of `s` every leading and
trailing character contained in `cut`. -/
def goTrim (s : String) (cut : List Char) : String :=
  ⟨(((s.data.dropWhile (fun c => decide (c ∈ cut))).reverse.dropWhile
      (fun c => decide (c ∈ cut))).reverse)⟩

/-- Cutset of the final trim of `Details` in `e`: Go `strings.Trim(d, "; ")`. -/
def cutDetails : List Char := [';', ' ']

/-- Cutset of the per-block trim in the renderer: Go `strings.Trim(s, " /\n:;")`. -/
def cutBlock : List Char := [' ', '/', '\n', ':', ';']

/-- Cutset of the deferred final trim of the renderer: Go `strings.Trim(ret, "\n- ;/")`. -/
def cutFinal : List Char := ['\n', '-', ' ', ';', '/']

/-- A Go `error` interface value reachable from the `Err` field: either a
native `Error` record of this package (fields inlined, since Lean structures
cannot be recursive) or a foreign error of which only the message matters. -/
inductive Cause : Type where
  | native (module function kind operation object code details : String)
      (err : Option Cause) : Cause
  | foreign (msg : String) : Cause
deriving Repr

/-- The `Error` struct of the source: six singular attribute fields, the
accumulated `Details` text and the optional wrapped cause `Err`. -/
structure Error where
  module : String := ""
  function : String := ""
  kind : String := ""
  operation : String := ""
  object : String := ""
  code : String := ""
  details : String := ""
  err : Option Cause := none
deriving Repr

/-- View an `Error` record as a Go `error` interface value. -/
def Error.toCause (r : Error) : Cause :=
  .native r.module r.function r.kind r.operation r.object r.code r.details r.err

/-- The type assertion `e.(Error)` of the renderer: succeeds exactly on native
records. -/
def Cause.asError : Cause → Option Error
  | .native m f k o ob c d e => some ⟨m, f, k, o, ob, c, d, e⟩
  | .foreign _ => none

/-- One value of the variadic argument list of `e`. A Go `string` is `str`;
a value of any unlisted type is `other`, carrying its `fmt.Sprintf("%v", x)`
rendering; `nilv` is the untyped `nil` interface value. -/
inductive Arg : Type where
  | nilv : Arg
  | mod (s : String) : Arg
  | func (s : String) : Arg
  | kind (s : String) : Arg
  | op (s : String) : Arg
  | obj (s : String) : Arg
  | code (s : String) : Arg
  | str (s : String) : Arg
  | err (c : Cause) : Arg
  | other (rendered : String) : Arg
deriving Repr

/-- One iteration of the argument loop of `e`: the `switch x := arg.(type)`
statement (with the preceding `if arg == nil` skip). -/
def eStep (r : Error) (a : Arg) : Error :=
  match a with
  | .nilv => r
  | .mod s => { r with module := s }
  | .func s => { r with function := s }
  | .kind s => { r with kind := s }
  | .op s => { r with operation := s }
  | .obj s => { r with object := s }
  | .code s => { r with code := s }
  | .str s => { r with details := r.details ++ "; " ++ s }
  | .err c => { r with err := some c }
  | .other s => { r with details := r.details ++ (s ++ "; ") }

/-- The classification function `e(err Error, args ...interface{}) Error` of
the source: fold the argument loop, then trim `Details` with cutset `"; "`. -/
def e (r : Error) (args : List Arg) : Error :=
  let r' := args.foldl eStep r
  { r' with details := goTrim r'.details cutDetails }

/-- The `Template` type of the source (`type Template Error`). -/
abbrev Template := Error

/-- Top-level constructor `E(args ...)`: classification from an empty record. -/
def E (args : List Arg) : Error := e {} args

/-- Top-level constructor `T(args ...)`: a fresh template. -/
def T (args : List Arg) : Template := e {} args

/-- The method `(tpl Template) T(args ...)`: derive a child template. -/
def Template.T (tpl : Template) (args : List Arg) : Template := e tpl args

/-- The method `(tpl Template) E(args ...)`: derive an error from a template. -/
def Template.E (tpl : Template) (args : List Arg) : Error := e tpl args

/-- The block-building section of the render loop body for the current node
`node`, where `top` is the method receiver (the outermost record): header,
operation, kind segment (which reads `top.kind` and `top.code`), code and
details, then the per-block trim. -/
def renderBlock (top node : Error) : String :=
  let s := node.module
  let s := if node.function ≠ "" then s ++ "/" ++ node.function else s
  let s := if node.object ≠ "" then s ++ " [" ++ node.object ++ "]" else s
  let s := s ++ "\n   "
  let s := if node.operation ≠ "" then s ++ node.operation ++ ": " else s
  let s := if top.kind ≠ "" then
      (s ++ node.kind ++ (if top.code = "" then ":" else "")) ++ " "
    else s
  let s := if node.code ≠ "" then s ++ "(" ++ node.code ++ "): " else s
  let s := if node.details ≠ "" then s ++ node.details else s
  goTrim s cutBlock

/-- The per-iteration prefix of the render loop: a newline once the result is
non-empty, then the literal `" - "`. -/
def renderPre (ret : String) : String :=
  (if ret = "" then ret else ret ++ "\n") ++ " - "

/-- The render loop of `Error() string`: walks the cause chain, appending one
block per native record, and stops at a foreign error by appending its own
message. `top` is the method receiver, read by the kind segment of every
block. -/
def renderLoop (top : Error) : String → Cause → String
  | ret, .foreign msg => renderPre ret ++ msg
  | ret, .native m f k o ob c d none =>
      renderPre ret ++ renderBlock top ⟨m, f, k, o, ob, c, d, none⟩
  | ret, .native m f k o ob c d (some cs) =>
      renderLoop top
        (renderPre ret ++ renderBlock top ⟨m, f, k, o, ob, c, d, some cs⟩) cs

/-- The `Error() string` method of the source (named `render` here): run the
loop from the receiver itself, then apply the deferred final trim. -/
def Error.render (err : Error) : String :=
  goTrim (renderLoop err "" err.toCause) cutFinal

/-- The `Unwrap` method: the wrapped cause, or `none`. -/
def Error.Unwrap (err : Error) : Option Cause := err.err

/-! ### Category extractors

One extractor per singular attribute category, used to state the override
(last-write-wins) laws: `filterMap` with the extractor collects, in order, the
values of that category occurring in an argument list. -/

/-- The `Mod` value carried by an argument, if it is one. -/
def modOf : Arg → Option String
  | .mod s => some s
  | _ => none

/-- The `Func` value carried by an argument, if it is one. -/
def funcOf : Arg → Option String
  | .func s => some s
  | _ => none

/-- The `Kind` value carried by an argument, if it is one. -/
def kindOf : Arg → Option String
  | .kind s => some s
  | _ => none

/-- The `Op` value carried by an argument, if it is one. -/
def opOf : Arg → Option String
  | .op s => some s
  | _ => none

/-- The `Obj` value carried by an argument, if it is one. -/
def objOf : Arg → Option String
  | .obj s => some s
  | _ => none

/-- The `Code` value carried by an argument, if it is one. -/
def codeOf : Arg → Option String
  | .code s => some s
  | _ => none

/-- The cause carried by an argument, if it is one, already wrapped in `some`
as the `Err` field stores it. -/
def causeOf : Arg → Option (Option Cause)
  | .err c => some (some c)
  | _ => none

/-- The text appended to the `Details` accumulator by one argument: a Go
`string` contributes `"; "` before its text, any other uncategorized value
contributes `"; "` after its rendering, and all categorized or nil arguments
contribute nothing. -/
def detailFrag : Arg → String
  | .str s => "; " ++ s
  | .other s => s ++ "; "
  | _ => ""

/-- Concatenation of the detail contributions of an argument list, in order. -/
def concatFrags : List Arg → String
  | [] => ""
  | a :: as => detailFrag a ++ concatFrags as

/-- Whether an argument is the `nil` interface value. -/
def Arg.isNilv : Arg → Bool
  | .nilv => true
  | _ => false

/-! ### Definitions written from the words of the spec, as comparison targets -/

/-- Spec-side definition (comparison target): the join of plain-text detail
fragments with the separator of the spec, `d1 ++ "; " ++ d2 ++ ... ++ "; " ++ dn`. -/
def joinSemi : List String → String
  | [] => ""
  | [d] => d
  | d :: ds => d ++ ("; " ++ joinSemi ds)

/-- Spec-side definition (comparison target): the header of a rendered block —
the module, `/Function` when set, ` [Object]` when set, the sub-line break, and
`Operation: ` when set. -/
def headerText (node : Error) : String :=
  node.module ++ (if node.function ≠ "" then "/" ++ node.function else "")
    ++ (if node.object ≠ "" then " [" ++ node.object ++ "]" else "")
    ++ "\n   "
    ++ (if node.operation ≠ "" then node.operation ++ ": " else "")

/-- Spec-side definition (comparison target) of the kind segment of a rendered
block, per the amended rule: the segment is present exactly when the
outermost record's `Kind` is non-empty; it is the current node's `Kind`,
then a colon exactly when the outermost record's `Code` is empty, then always
one trailing space. -/
def kindSegment (top node : Error) : String :=
  if top.kind ≠ "" then
    node.kind ++ (if top.code = "" then ":" else "") ++ " "
  else ""

/-- Spec-side definition (comparison target): the tail of a rendered block —
`(Code): ` when set, then the details when set. -/
def tailText (node : Error) : String :=
  (if node.code ≠ "" then "(" ++ node.code ++ "): " else "")
    ++ (if node.details ≠ "" then node.details else "")

/-! ### Chain construction and iterated unwrapping -/

/-- Build a nested chain: each record of `rs`, in order, wraps the chain built
so far, starting from `inner` (the innermost record). -/
def wrapAll : Error → List Error → Error
  | inner, [] => inner
  | inner, r :: rest => wrapAll { r with err := some inner.toCause } rest

/-- Apply `Unwrap` repeatedly, descending only while the wrapped cause is a
native `Error` record; `none` when the chain is too short. -/
def unwrapIter : Nat → Error → Option Error
  | 0, r => some r
  | n + 1, r => ((r.Unwrap).bind Cause.asError).bind (unwrapIter n)

/-- The apostrophe character, written via its code point. -/
def apos : String := ⟨[Char.ofNat 39]⟩

/-- The message `can.t read config` of the spec scenario, with `.` the
apostrophe. -/
def cantReadConfig : String := "can" ++ apos ++ "t read config"

/-! ### Helper lemmas on lists and strings -/

/-- Helper: a conditional append on the left becomes an append of a
conditional fragment. -/
theorem append_ite (c : Prop) [Decidable c] (s x : String) :
    (if c then s ++ x else s) = s ++ (if c then x else "") := by
  by_cases h : c <;> simp [h, String.append_empty]

/-- Helper: a conditional double append on the left becomes an append of a
conditional fragment. -/
theorem append_ite2 (c : Prop) [Decidable c] (s x y : String) :
    (if c then s ++ x ++ y else s) = s ++ (if c then x ++ y else "") := by
  by_cases h : c <;> simp [h, String.append_assoc, String.append_empty]

/-- Helper: a conditional triple append on the left becomes an append of a
conditional fragment. -/
theorem append_ite3 (c : Prop) [Decidable c] (s x y z : String) :
    (if c then s ++ x ++ y ++ z else s) = s ++ (if c then x ++ (y ++ z) else "") := by
  by_cases h : c <;> simp [h, String.append_assoc, String.append_empty]

/-- Helper: `getLast?` with a default distributes over `cons` by moving the
head into the default. -/
theorem getLast?_getD_cons {α : Type} (l : List α) :
    ∀ x d : α, ((x :: l).getLast?).getD d = (l.getLast?).getD x := by
  induction l with
  | nil => intro x d; rfl
  | cons y ys ih =>
      intro x d
      rw [List.getLast?_cons_cons, ih y d, ih y x]

/-- Helper: one loop iteration changes `details` by exactly the argument's
detail contribution. -/
theorem eStep_details (r : Error) (a : Arg) :
    (eStep r a).details = r.details ++ detailFrag a := by
  cases a <;>
    simp [eStep, detailFrag, String.append_assoc, String.append_empty]

/-- Helper: the argument loop appends, to the inherited `Details`, the
concatenated detail contributions of the whole list. -/
theorem foldl_details (args : List Arg) :
    ∀ r : Error, (args.foldl eStep r).details = r.details ++ concatFrags args := by
  induction args with
  | nil => intro r; simp [concatFrags, String.append_empty]
  | cons a as ih =>
      intro r
      rw [List.foldl_cons, ih, eStep_details, concatFrags,
        String.append_assoc]

/-- Helper: the argument loop leaves `module` at the last `Mod` argument, or
at the inherited value when there is none. -/
theorem foldl_module (args : List Arg) :
    ∀ r : Error,
      (args.foldl eStep r).module = ((args.filterMap modOf).getLast?).getD r.module := by
  induction args with
  | nil => intro r; rfl
  | cons a as ih =>
      intro r
      rw [List.foldl_cons, ih]
      cases a <;> simp [eStep, modOf, List.filterMap_cons, getLast?_getD_cons]

/-- Helper: the argument loop leaves `function` at the last `Func` argument, or
at the inherited value when there is none. -/
theorem foldl_function (args : List Arg) :
    ∀ r : Error,
      (args.foldl eStep r).function = ((args.filterMap funcOf).getLast?).getD r.function := by
  induction args with
  | nil => intro r; rfl
  | cons a as ih =>
      intro r
      rw [List.foldl_cons, ih]
      cases a <;> simp [eStep, funcOf, List.filterMap_cons, getLast?_getD_cons]

/-- Helper: the argument loop leaves `kind` at the last `Kind` argument, or
at the inherited value when there is none. -/
theorem foldl_kind (args : List Arg) :
    ∀ r : Error,
      (args.foldl eStep r).kind = ((args.filterMap kindOf).getLast?).getD r.kind := by
  induction args with
  | nil => intro r; rfl
  | cons a as ih =>
      intro r
      rw [List.foldl_cons, ih]
      cases a <;> simp [eStep, kindOf, List.filterMap_cons, getLast?_getD_cons]

/-- Helper: the argument loop leaves `operation` at the last `Op` argument, or
at the inherited value when there is none. -/
theorem foldl_operation (args : List Arg) :
    ∀ r : Error,
      (args.foldl eStep r).operation = ((args.filterMap opOf).getLast?).getD r.operation := by
  induction args with
  | nil => intro r; rfl
  | cons a as ih =>
      intro r
      rw [List.foldl_cons, ih]
      cases a <;> simp [eStep, opOf, List.filterMap_cons, getLast?_getD_cons]

/-- Helper: the argument loop leaves `object` at the last `Obj` argument, or
at the inherited value when there is none. -/
theorem foldl_object (args : List Arg) :
    ∀ r : Error,
      (args.foldl eStep r).object = ((args.filterMap objOf).getLast?).getD r.object := by
  induction args with
  | nil => intro r; rfl
  | cons a as ih =>
      intro r
      rw [List.foldl_cons, ih]
      cases a <;> simp [eStep, objOf, List.filterMap_cons, getLast?_getD_cons]

/-- Helper: the argument loop leaves `code` at the last `Code` argument, or
at the inherited value when there is none. -/
theorem foldl_code (args : List Arg) :
    ∀ r : Error,
      (args.foldl eStep r).code = ((args.filterMap codeOf).getLast?).getD r.code := by
  induction args with
  | nil => intro r; rfl
  | cons a as ih =>
      intro r
      rw [List.foldl_cons, ih]
      cases a <;> simp [eStep, codeOf, List.filterMap_cons, getLast?_getD_cons]

/-- Helper: the argument loop leaves `err` at the last cause argument, or
at the inherited value when there is none. -/
theorem foldl_err (args : List Arg) :
    ∀ r : Error,
      (args.foldl eStep r).err = ((args.filterMap causeOf).getLast?).getD r.err := by
  induction args with
  | nil => intro r; rfl
  | cons a as ih =>
      intro r
      rw [List.foldl_cons, ih]
      cases a <;> simp [eStep, causeOf, List.filterMap_cons, getLast?_getD_cons]

/-- Helper: the final `Details` trim of `e` touches no other field. -/
theorem e_fields (r : Error) (args : List Arg) :
    (e r args).module = (args.foldl eStep r).module ∧
    (e r args).function = (args.foldl eStep r).function ∧
    (e r args).kind = (args.foldl eStep r).kind ∧
    (e r args).operation = (args.foldl eStep r).operation ∧
    (e r args).object = (args.foldl eStep r).object ∧
    (e r args).code = (args.foldl eStep r).code ∧
    (e r args).err = (args.foldl eStep r).err ∧
    (e r args).details = goTrim (args.foldl eStep r).details cutDetails := by
  refine ⟨rfl, rfl, rfl, rfl, rfl, rfl, rfl, rfl⟩

/-- Helper: a leading `"; "` is absorbed by the final details trim. -/
theorem goTrim_semi_prefix (s : String) :
    goTrim ("; " ++ s) cutDetails = goTrim s cutDetails := by
  have h : ("; " ++ s).data = ';' :: ' ' :: s.data := by
    rw [String.data_append]
    rfl
  simp [goTrim, h, cutDetails, List.dropWhile_cons]

/-- Helper: the detail contributions of a non-empty all-text list are the
spec-side join of the texts, preceded by one separator. -/
theorem concatFrags_map_str (d : String) (ds : List String) :
    concatFrags ((d :: ds).map Arg.str) = "; " ++ joinSemi (d :: ds) := by
  induction ds generalizing d with
  | nil => simp [concatFrags, detailFrag, joinSemi, String.append_empty]
  | cons d' ds' ih =>
      have l1 : concatFrags ((d :: d' :: ds').map Arg.str)
          = ("; " ++ d) ++ concatFrags ((d' :: ds').map Arg.str) := rfl
      rw [l1, ih d']
      show ("; " ++ d) ++ ("; " ++ joinSemi (d' :: ds'))
        = "; " ++ (d ++ ("; " ++ joinSemi (d' :: ds')))
      rw [String.append_assoc]

/-- Helper: an argument list with no detail contribution contributes the empty
string. -/
theorem concatFrags_eq_empty (args : List Arg) (h : ∀ a ∈ args, detailFrag a = "") :
    concatFrags args = "" := by
  induction args with
  | nil => rfl
  | cons a as ih =>
      rw [concatFrags, h a (by simp), ih (fun x hx => h x (by simp [hx])),
        String.empty_append]

/-- Helper: the head of a `dropWhile` residue falsifies the predicate. -/
theorem head?_dropWhile_false {α : Type} {p : α → Bool} :
    ∀ {l : List α} {c : α}, ((l.dropWhile p).head? = some c) → p c = false := by
  intro l
  induction l with
  | nil => intro c h; simp [List.dropWhile] at h
  | cons a as ih =>
      intro c h
      by_cases hp : p a
      · rw [List.dropWhile_cons_of_pos hp] at h
        exact ih h
      · rw [List.dropWhile_cons_of_neg hp] at h
        simp only [List.head?_cons, Option.some.injEq] at h
        subst h
        exact Bool.not_eq_true _ ▸ Bool.eq_false_iff.mpr hp

/-- Helper: a non-empty `dropWhile` residue ends where the whole list ends. -/
theorem getLast?_dropWhile_of_ne {α : Type} {p : α → Bool} :
    ∀ (l : List α), l.dropWhile p ≠ [] → (l.dropWhile p).getLast? = l.getLast? := by
  intro l
  induction l with
  | nil => intro h; rfl
  | cons a as ih =>
      intro h
      by_cases hp : p a
      · rw [List.dropWhile_cons_of_pos hp] at h ⊢
        rw [ih h]
        cases as with
        | nil => simp [List.dropWhile] at h
        | cons b bs => rw [List.getLast?_cons_cons]
      · rw [List.dropWhile_cons_of_neg hp]

/-- Helper: the result of `goTrim` neither starts nor ends with a character of
the cutset. -/
theorem goTrim_no_edge (s : String) (cut : List Char) (c : Char) :
    ((goTrim s cut).data.head? = some c → c ∉ cut) ∧
    ((goTrim s cut).data.getLast? = some c → c ∉ cut) := by
  constructor
  · intro h
    simp only [goTrim, List.head?_reverse] at h
    have hne : ((s.data.dropWhile (fun c => decide (c ∈ cut))).reverse.dropWhile
        (fun c => decide (c ∈ cut))) ≠ [] := by
      intro he
      rw [he] at h
      simp at h
    rw [getLast?_dropWhile_of_ne _ hne, List.getLast?_reverse] at h
    have := head?_dropWhile_false h
    simpa using this
  · intro h
    simp only [goTrim, List.getLast?_reverse] at h
    have := head?_dropWhile_false h
    simpa using this

/-- Helper: unwrapping one extra time peels one record off the inner end. -/
theorem unwrapIter_succ (n : Nat) :
    ∀ r : Error, unwrapIter (n + 1) r
      = (unwrapIter n r).bind (fun x => ((x.Unwrap).bind Cause.asError)) := by
  induction n with
  | zero =>
      intro r
      simp [unwrapIter]
  | succ m ih =>
      intro r
      have l1 : unwrapIter (m + 1 + 1) r
          = ((r.Unwrap).bind Cause.asError).bind (unwrapIter (m + 1)) := rfl
      have l2 : unwrapIter (m + 1) r
          = ((r.Unwrap).bind Cause.asError).bind (unwrapIter m) := rfl
      rw [l1, l2]
      cases h : (r.Unwrap).bind Cause.asError with
      | none => rfl
      | some r' => simpa using ih r'

/-- Helper: viewing a record as a cause and asserting it back is the identity. -/
theorem asError_toCause (r : Error) : (r.toCause).asError = some r := rfl

/-- Helper: the outermost `rs.length` unwraps of a chain built over `inner`
reach `inner` exactly. -/
theorem unwrapIter_wrapAll (rs : List Error) :
    ∀ inner : Error, unwrapIter rs.length (wrapAll inner rs) = some inner := by
  induction rs with
  | nil => intro inner; rfl
  | cons r rest ih =>
      intro inner
      have l1 : wrapAll inner (r :: rest)
          = wrapAll { r with err := some inner.toCause } rest := rfl
      rw [List.length_cons, l1, unwrapIter_succ, ih]
      simp [Error.Unwrap, asError_toCause]

/-! ### Claim theorems -/

/-- Claim C2: the three-level scenario renders to the exact strings of the
spec. `E("file does not exist")` renders to `file does not exist`; wrapping it
with the message `cantReadConfig` renders to that message, a line break, and
` - file does not exist`; wrapping again with Module `example`, Function
`startup`, Operation `configure` and Kind `configure failed` renders to
`example/startup`, a sub-line `   configure: configure failed`, and the two
cause lines prefixed with ` - `. -/
theorem example_scenario_render :
    (E [.str "file does not exist"]).render = "file does not exist" ∧
    (E [.str cantReadConfig, .err (E [.str "file does not exist"]).toCause]).render
      = cantReadConfig ++ "\n - file does not exist" ∧
    (E [.mod "example", .func "startup", .op "configure", .kind "configure failed",
        .err (E [.str cantReadConfig,
          .err (E [.str "file does not exist"]).toCause]).toCause]).render
      = "example/startup\n   configure: configure failed\n - " ++ cantReadConfig
          ++ "\n - file does not exist" := by
  refine ⟨rfl, ?_, ?_⟩ <;> decide

/-- Claim C4: for every starting record and argument list, each singular field
of the classified record equals the last value of that category in the list
(or the inherited value when the list has none), and the `Err` field equals
the last cause in the list (or the inherited cause when the list has none);
in particular, with two or more values of one category the last one wins. -/
theorem last_attribute_wins (r : Error) (args : List Arg) :
    (e r args).module = ((args.filterMap modOf).getLast?).getD r.module ∧
    (e r args).function = ((args.filterMap funcOf).getLast?).getD r.function ∧
    (e r args).kind = ((args.filterMap kindOf).getLast?).getD r.kind ∧
    (e r args).operation = ((args.filterMap opOf).getLast?).getD r.operation ∧
    (e r args).object = ((args.filterMap objOf).getLast?).getD r.object ∧
    (e r args).code = ((args.filterMap codeOf).getLast?).getD r.code ∧
    (e r args).err = ((args.filterMap causeOf).getLast?).getD r.err :=
  ⟨foldl_module args r, foldl_function args r, foldl_kind args r,
    foldl_operation args r, foldl_object args r, foldl_code args r,
    foldl_err args r⟩

/-- Claim C5: classification ignores `nil` arguments entirely — the record
built from any argument list equals the record built from the same list with
all `nil` values removed. -/
theorem nil_args_ignored (r : Error) (args : List Arg) :
    e r args = e r (args.filter (fun a => ! a.isNilv)) := by
  have h : ∀ (l : List Arg) (r : Error),
      l.foldl eStep r = (l.filter (fun a => ! a.isNilv)).foldl eStep r := by
    intro l
    induction l with
    | nil => intro r; rfl
    | cons a as ih =>
        intro r
        cases a <;> simp [List.filter_cons, Arg.isNilv, eStep] <;> exact ih _
  rw [e, e, ← h]

/-- Counterexample to claim C3 as stated: a non-text value followed by a text
value. The code appends a non-text rendering as `value; ` (separator after)
but a text as `; text` (separator before), so the pair produces the Details
`42; ; a` and not the uniform join `42; a` the claim asserts. -/
theorem details_join_counterexample :
    (e {} [.other "42", .str "a"]).details = "42; ; a" ∧ "42; ; a" ≠ "42; a" := by
  refine ⟨by decide, by decide⟩

/-- Claim C3 (amended): every value that is neither one of the six singular
attribute kinds nor a cause contributes one detail fragment; a text value
contributes `"; "` followed by its text, while any other value contributes its
default rendering followed by `"; "`. The final Details field equals the
inherited Details value followed by the concatenation of these contributions
in order, with leading and trailing `;` and space characters trimmed once at
the end of classification. (The original claim's uniform `"; "`-join holds
only when the uncategorized values are all text.) -/
theorem details_concatenation (r : Error) (args : List Arg) :
    (e r args).details = goTrim (r.details ++ concatFrags args) cutDetails := by
  have h : (e r args).details = goTrim (args.foldl eStep r).details cutDetails := rfl
  rw [h, foldl_details]

/-- Claim C6: for plain-text detail values `d1, ..., dn` passed with no other
attributes to classification starting from an all-empty record, the Details
field is the trim of `d1 ++ "; " ++ d2 ++ ... ++ "; " ++ dn`. -/
theorem plain_text_details_join (ds : List String) :
    (e {} (ds.map Arg.str)).details = goTrim (joinSemi ds) cutDetails := by
  cases ds with
  | nil => rfl
  | cons d ds' =>
      have h : (e {} ((d :: ds').map Arg.str)).details
          = goTrim (((d :: ds').map Arg.str).foldl eStep {}).details cutDetails := rfl
      rw [h, foldl_details]
      have h0 : ({} : Error).details = "" := rfl
      rw [h0, String.empty_append, concatFrags_map_str, goTrim_semi_prefix]

/-- Claim C10: after any classification (all of `E`, `T`, `Template.T` and
`Template.E` classify through `e`, over any argument list and any starting
record), the Details field of the result never begins or ends with a `;` or a
space character; in particular trailing `;` or spaces of a last fragment are
stripped. -/
theorem details_never_edged (r : Error) (args : List Arg) (c : Char) :
    ((e r args).details.data.head? = some c → c ≠ ';' ∧ c ≠ ' ') ∧
    ((e r args).details.data.getLast? = some c → c ≠ ';' ∧ c ≠ ' ') := by
  have h := goTrim_no_edge ((args.foldl eStep r).details) cutDetails c
  constructor
  · intro hh
    have hc := h.1 hh
    simp [cutDetails] at hc
    exact hc
  · intro hh
    have hc := h.2 hh
    simp [cutDetails] at hc
    exact hc

/-- Witness for claim C10 at the concrete input `e {} [.str "x"]`, whose
Details is `x`: both edge characters are `x`, which is neither `;` nor a
space. -/
theorem details_never_edged_witness :
    ('x' ≠ ';' ∧ 'x' ≠ ' ') ∧ ('x' ≠ ';' ∧ 'x' ≠ ' ') :=
  ⟨(details_never_edged {} [.str "x"] 'x').1 rfl,
    (details_never_edged {} [.str "x"] 'x').2 rfl⟩

/-- Claim C7: template derivation is non-destructive and the two results are
independent. Both children are pure functions of the parent and their own
attribute list alone: for every category absent from the second child's list,
the second child carries the parent's original value — regardless of what the
first child's list added or overrode — and the first child carries its own
last value of a category it does set. -/
theorem template_derivations_independent (tpl : Template) (args1 args2 : List Arg) :
    (args2.filterMap modOf = [] → (Template.T tpl args2).module = tpl.module) ∧
    (args2.filterMap funcOf = [] → (Template.T tpl args2).function = tpl.function) ∧
    (args2.filterMap kindOf = [] → (Template.T tpl args2).kind = tpl.kind) ∧
    (args2.filterMap opOf = [] → (Template.T tpl args2).operation = tpl.operation) ∧
    (args2.filterMap objOf = [] → (Template.T tpl args2).object = tpl.object) ∧
    (args2.filterMap codeOf = [] → (Template.T tpl args2).code = tpl.code) ∧
    (args2.filterMap causeOf = [] → (Template.T tpl args2).err = tpl.err) ∧
    (∀ s, (args1.filterMap modOf).getLast? = some s
      → (Template.E tpl args1).module = s) := by
  refine ⟨?_, ?_, ?_, ?_, ?_, ?_, ?_, ?_⟩
  · intro h
    have := foldl_module args2 tpl
    rw [h] at this
    exact this
  · intro h
    have := foldl_function args2 tpl
    rw [h] at this
    exact this
  · intro h
    have := foldl_kind args2 tpl
    rw [h] at this
    exact this
  · intro h
    have := foldl_operation args2 tpl
    rw [h] at this
    exact this
  · intro h
    have := foldl_object args2 tpl
    rw [h] at this
    exact this
  · intro h
    have := foldl_code args2 tpl
    rw [h] at this
    exact this
  · intro h
    have := foldl_err args2 tpl
    rw [h] at this
    exact this
  · intro s hs
    have := foldl_module args1 tpl
    rw [hs] at this
    exact this

/-- Witness for claim C7: parent `T [.mod "m"]`, first child derived with
`[.mod "x"]`, second child derived with `[.str "note"]` (no singular
attributes). The second child keeps every parent field; the first child's
module is its own `x`. -/
theorem template_derivations_independent_witness :
    (Template.T (T [.mod "m"]) [.str "note"]).module = (T [.mod "m"]).module ∧
    (Template.T (T [.mod "m"]) [.str "note"]).function = (T [.mod "m"]).function ∧
    (Template.T (T [.mod "m"]) [.str "note"]).kind = (T [.mod "m"]).kind ∧
    (Template.T (T [.mod "m"]) [.str "note"]).operation = (T [.mod "m"]).operation ∧
    (Template.T (T [.mod "m"]) [.str "note"]).object = (T [.mod "m"]).object ∧
    (Template.T (T [.mod "m"]) [.str "note"]).code = (T [.mod "m"]).code ∧
    (Template.T (T [.mod "m"]) [.str "note"]).err = (T [.mod "m"]).err ∧
    (Template.E (T [.mod "m"]) [.mod "x"]).module = "x" := by
  obtain ⟨h1, h2, h3, h4, h5, h6, h7, h8⟩ :=
    template_derivations_independent (T [.mod "m"]) [.mod "x"] [.str "note"]
  exact ⟨h1 rfl, h2 rfl, h3 rfl, h4 rfl, h5 rfl, h6 rfl, h7 rfl, h8 "x" rfl⟩

/-- Counterexample to claim C8 as stated: derivation can turn a non-empty
inherited field into an empty one, by overriding with an attribute carrying
the empty text. The parent template has Module `a`; deriving with `Mod("")`
yields Module empty. -/
theorem override_empty_counterexample :
    (T [.mod "a"]).module = "a" ∧ (Template.E (T [.mod "a"]) [.mod ""]).module = "" :=
  ⟨rfl, rfl⟩

/-- Claim C8 (amended): a Template's fields are copied verbatim into the
derived record before the new attributes are applied, so a field whose
category has no attribute in the argument list keeps the inherited value
(Details keeps the trim of the inherited value when the list contributes no
detail); only an explicit attribute of the category can change a field — and
such an override may carry the empty text, so a non-empty inherited field can
become empty by overriding (the original claim's `never unset` fails there). -/
theorem template_fields_inherited (tpl : Template) (args : List Arg) :
    (args.filterMap modOf = [] → (Template.E tpl args).module = tpl.module) ∧
    (args.filterMap funcOf = [] → (Template.E tpl args).function = tpl.function) ∧
    (args.filterMap kindOf = [] → (Template.E tpl args).kind = tpl.kind) ∧
    (args.filterMap opOf = [] → (Template.E tpl args).operation = tpl.operation) ∧
    (args.filterMap objOf = [] → (Template.E tpl args).object = tpl.object) ∧
    (args.filterMap codeOf = [] → (Template.E tpl args).code = tpl.code) ∧
    (args.filterMap causeOf = [] → (Template.E tpl args).err = tpl.err) ∧
    ((∀ a ∈ args, detailFrag a = "")
      → (Template.E tpl args).details = goTrim tpl.details cutDetails) := by
  refine ⟨?_, ?_, ?_, ?_, ?_, ?_, ?_, ?_⟩
  · intro h
    have := foldl_module args tpl
    rw [h] at this
    exact this
  · intro h
    have := foldl_function args tpl
    rw [h] at this
    exact this
  · intro h
    have := foldl_kind args tpl
    rw [h] at this
    exact this
  · intro h
    have := foldl_operation args tpl
    rw [h] at this
    exact this
  · intro h
    have := foldl_object args tpl
    rw [h] at this
    exact this
  · intro h
    have := foldl_code args tpl
    rw [h] at this
    exact this
  · intro h
    have := foldl_err args tpl
    rw [h] at this
    exact this
  · intro h
    have hd : (Template.E tpl args).details
        = goTrim (tpl.details ++ concatFrags args) cutDetails := by
      have h1 : (Template.E tpl args).details
          = goTrim (args.foldl eStep tpl).details cutDetails := rfl
      rw [h1, foldl_details]
    rw [hd, concatFrags_eq_empty args h, String.append_empty]

/-- Witness for claim C8 at parent `T [.mod "m", .str "D"]` and the argument
list `[.nilv]`, which has no attribute of any category and contributes no
detail: every field of the derived error equals the parent's. -/
theorem template_fields_inherited_witness :
    (Template.E (T [.mod "m", .str "D"]) [.nilv]).module = (T [.mod "m", .str "D"]).module ∧
    (Template.E (T [.mod "m", .str "D"]) [.nilv]).function = (T [.mod "m", .str "D"]).function ∧
    (Template.E (T [.mod "m", .str "D"]) [.nilv]).kind = (T [.mod "m", .str "D"]).kind ∧
    (Template.E (T [.mod "m", .str "D"]) [.nilv]).operation = (T [.mod "m", .str "D"]).operation ∧
    (Template.E (T [.mod "m", .str "D"]) [.nilv]).object = (T [.mod "m", .str "D"]).object ∧
    (Template.E (T [.mod "m", .str "D"]) [.nilv]).code = (T [.mod "m", .str "D"]).code ∧
    (Template.E (T [.mod "m", .str "D"]) [.nilv]).err = (T [.mod "m", .str "D"]).err ∧
    (Template.E (T [.mod "m", .str "D"]) [.nilv]).details
      = goTrim (T [.mod "m", .str "D"]).details cutDetails := by
  obtain ⟨h1, h2, h3, h4, h5, h6, h7, h8⟩ :=
    template_fields_inherited (T [.mod "m", .str "D"]) [.nilv]
  refine ⟨h1 rfl, h2 rfl, h3 rfl, h4 rfl, h5 rfl, h6 rfl, h7 rfl, h8 ?_⟩
  intro a ha
  simp only [List.mem_singleton] at ha
  rw [ha]
  rfl

/-- Claim C9: for a chain of `rs.length + 1` nested records, each of `rs`
wrapping the chain below it over the innermost record `inner`, applying
`Unwrap` `rs.length` times to the outermost record reaches `inner`, and the
innermost record's `Unwrap` returns `none`. -/
theorem unwrap_chain (inner : Error) (rs : List Error) (h : inner.err = none) :
    unwrapIter rs.length (wrapAll inner rs) = some inner ∧ inner.Unwrap = none :=
  ⟨unwrapIter_wrapAll rs inner, h⟩

/-- Witness for claim C9: a three-record chain built over `E [.str "inner"]`;
two unwraps from the outermost reach the innermost, whose `Unwrap` is `none`. -/
theorem unwrap_chain_witness :
    unwrapIter 2 (wrapAll (E [.str "inner"]) [E [.str "mid"], E [.str "outer"]])
      = some (E [.str "inner"]) ∧ (E [.str "inner"]).Unwrap = none :=
  unwrap_chain (E [.str "inner"]) [E [.str "mid"], E [.str "outer"]] rfl

/-- Counterexample to claim C1 as stated: the outer record has Kind `K` and
empty Code; the wrapped record has Kind `k`, Code `c` and detail `d`. The
claim predicts no colon after the inner node's Kind (its own Code `c` is
non-empty), i.e. the block `k (c): d`; the code instead consults the
outermost record's Code, which is empty, and renders `k: (c): d`. -/
theorem kind_colon_counterexample :
    (E [.kind "K", .err (E [.kind "k", .code "c", .str "d"]).toCause]).render
      = "K\n - k: (c): d" ∧ "K\n - k: (c): d" ≠ "K\n - k (c): d" := by
  refine ⟨by decide, by decide⟩

/-- Claim C1 (amended): in every rendered block of the cause chain, the kind
segment is present exactly when the outermost record's Kind is non-empty, in
which case it is the current node's Kind followed by a colon exactly when the
outermost record's Code — not the current node's — is empty, and then always
one trailing space; the block is that segment between the header and the
code/details tail, trimmed with the block cutset. -/
theorem kind_uses_outermost_code (top node : Error) :
    renderBlock top node
      = goTrim (headerText node ++ (kindSegment top node ++ tailText node)) cutBlock := by
  simp only [renderBlock]
  rw [append_ite2 (node.function ≠ "") node.module "/" node.function]
  rw [append_ite3 (node.object ≠ "")
    (node.module ++ if node.function ≠ "" then "/" ++ node.function else "")
    " [" node.object "]"]
  rw [append_ite2 (node.operation ≠ "") _ node.operation ": "]
  rw [append_ite3 (top.kind ≠ "") _ node.kind
    (if top.code = "" then ":" else "") " "]
  rw [append_ite3 (node.code ≠ "") _ "(" node.code "): "]
  rw [append_ite (node.details ≠ "") _ node.details]
  simp only [headerText, kindSegment, tailText, String.append_assoc]

end GoErrors
